import Mathlib

/-!
Shallow embedding of the browser_sync weak-handle mechanism
(chrome/browser/sync/weak_handle.h): a `WeakHandle` is a freely copyable
reference to a reference-counted `WeakHandleCore`, which owns a
heap-allocated `base::WeakPtr<T>` that may only be touched on the owner
thread.  Cross-thread invocations are packaged into tasks posted to the
owner thread; when a task runs it re-resolves the weak pointer and invokes
the target member only if the target is still alive.

Threads, target objects, member selectors and argument values are modelled
as natural numbers.  The observable behaviour of each operation is captured
as a list of `Event`s (reads/deletes of the heap weak-pointer value, member
invocations, log output), so that thread-affinity and silent-no-op
properties can be stated about the events an operation emits.  Fatal CHECK
conditions are modelled with `Except Halt`.
-/

abbrev ThreadId := Nat
abbrev ObjId := Nat
abbrev MemberId := Nat
abbrev Arg := Nat

/-- Models `base::WeakPtr<T>`: names the target object it refers to.
Whether the target is still alive is a property of the world (the `live`
flag threaded through the operations), not of the pointer value itself. -/
structure WeakPtr where
  target : ObjId
deriving Repr, DecidableEq

/-- Resolving the weak pointer (`ptr_->get()` in the source): a live pointer
if the target is alive, null otherwise. -/
def WeakPtr.get (p : WeakPtr) (live : Bool) : Option ObjId :=
  if live then some p.target else none

/-- Observable effects of the weak-handle operations.  `touchPtr t` is a
read of the heap-allocated weak-pointer value performed on thread `t`
(dereferencing `ptr_` or calling `ptr_->get()`); `deletePtr t` is its
destruction on thread `t`; `invoke t obj fn args` is an invocation of
member `fn` of target `obj` on thread `t` with argument values `args`;
`log t` is diagnostic output on thread `t` (no source path emits one, and
the event vocabulary includes it precisely so that absence of logging is
a statable property). -/
inductive Event where
  | touchPtr (tid : ThreadId)
  | deletePtr (tid : ThreadId)
  | invoke (tid : ThreadId) (target : ObjId) (fn : MemberId) (args : List Arg)
  | log (tid : ThreadId)
deriving Repr, DecidableEq

/-- The thread an event happened on. -/
def Event.tid : Event → ThreadId
  | .touchPtr t => t
  | .deletePtr t => t
  | .invoke t _ _ _ => t
  | .log t => t

/-- A failed CHECK: the process halts instead of returning. -/
inductive Halt where
  | checkFailure
deriving Repr, DecidableEq

/-- Decidable equality for `Except` results, so that concrete runs of the
embedded operations can be checked by `decide`. -/
instance exceptDecEq {ε α : Type} [DecidableEq ε] [DecidableEq α] :
    DecidableEq (Except ε α)
  | Except.ok a, Except.ok b =>
      if h : a = b then isTrue (by rw [h]) else isFalse (by simp [h])
  | Except.ok _, Except.error _ => isFalse (by simp)
  | Except.error _, Except.ok _ => isFalse (by simp)
  | Except.error e, Except.error f =>
      if h : e = f then isTrue (by rw [h]) else isFalse (by simp [h])

/-- Models `internal::WeakHandleCore<T>` (together with its base class
`WeakHandleCoreBase`): the owner thread identity captured at construction
(`message_loop_proxy_`) and the heap-allocated weak pointer `ptr_`. -/
structure WeakHandleCore where
  ownerThread : ThreadId
  ptr : WeakPtr
deriving Repr, DecidableEq

/-- `WeakHandleCoreBase::IsOnOwnerThread`: whether the calling thread is
the owner thread. -/
def WeakHandleCore.IsOnOwnerThread (c : WeakHandleCore) (cur : ThreadId) : Bool :=
  cur == c.ownerThread

/-- `WeakHandleCore<T>::Get`: `CHECK(IsOnOwnerThread()); return *ptr_;`.
Returns the wrapped weak pointer and the read it performs on `cur`. -/
def WeakHandleCore.Get (c : WeakHandleCore) (cur : ThreadId) :
    Except Halt (WeakPtr × List Event) :=
  if c.IsOnOwnerThread cur then
    Except.ok (c.ptr, [Event.touchPtr cur])
  else
    Except.error Halt.checkFailure

/-- `WeakHandleCore<T>::DoCall0`: `CHECK(IsOnOwnerThread()); if
(!ptr_->get()) return; (ptr_->get()->*fn)();`.  The dead-target branch
resolves the pointer once and returns; the live branch resolves it twice
and invokes the member. -/
def WeakHandleCore.DoCall0 (c : WeakHandleCore) (cur : ThreadId) (live : Bool)
    (fn : MemberId) : Except Halt (List Event) :=
  if c.IsOnOwnerThread cur then
    match c.ptr.get live with
    | none => Except.ok [Event.touchPtr cur]
    | some t =>
        Except.ok [Event.touchPtr cur, Event.touchPtr cur,
                   Event.invoke cur t fn []]
  else
    Except.error Halt.checkFailure

/-- `WeakHandleCore<T>::DoCall1`, one bound argument. -/
def WeakHandleCore.DoCall1 (c : WeakHandleCore) (cur : ThreadId) (live : Bool)
    (fn : MemberId) (a1 : Arg) : Except Halt (List Event) :=
  if c.IsOnOwnerThread cur then
    match c.ptr.get live with
    | none => Except.ok [Event.touchPtr cur]
    | some t =>
        Except.ok [Event.touchPtr cur, Event.touchPtr cur,
                   Event.invoke cur t fn [a1]]
  else
    Except.error Halt.checkFailure

/-- `WeakHandleCore<T>::DoCall2`, two bound arguments. -/
def WeakHandleCore.DoCall2 (c : WeakHandleCore) (cur : ThreadId) (live : Bool)
    (fn : MemberId) (a1 a2 : Arg) : Except Halt (List Event) :=
  if c.IsOnOwnerThread cur then
    match c.ptr.get live with
    | none => Except.ok [Event.touchPtr cur]
    | some t =>
        Except.ok [Event.touchPtr cur, Event.touchPtr cur,
                   Event.invoke cur t fn [a1, a2]]
  else
    Except.error Halt.checkFailure

/-- `WeakHandleCore<T>::DoCall3`, three bound arguments. -/
def WeakHandleCore.DoCall3 (c : WeakHandleCore) (cur : ThreadId) (live : Bool)
    (fn : MemberId) (a1 a2 a3 : Arg) : Except Halt (List Event) :=
  if c.IsOnOwnerThread cur then
    match c.ptr.get live with
    | none => Except.ok [Event.touchPtr cur]
    | some t =>
        Except.ok [Event.touchPtr cur, Event.touchPtr cur,
                   Event.invoke cur t fn [a1, a2, a3]]
  else
    Except.error Halt.checkFailure

/-- `WeakHandleCore<T>::DoCall4`, four bound arguments. -/
def WeakHandleCore.DoCall4 (c : WeakHandleCore) (cur : ThreadId) (live : Bool)
    (fn : MemberId) (a1 a2 a3 a4 : Arg) : Except Halt (List Event) :=
  if c.IsOnOwnerThread cur then
    match c.ptr.get live with
    | none => Except.ok [Event.touchPtr cur]
    | some t =>
        Except.ok [Event.touchPtr cur, Event.touchPtr cur,
                   Event.invoke cur t fn [a1, a2, a3, a4]]
  else
    Except.error Halt.checkFailure

/-- A unit of work posted to the owner thread queue: the `Bind(...)`
closures built by the per-arity `Call` overloads, and the deferred
deletion task produced by `DeleteSoon`. -/
inductive QTask where
  | call0 (fn : MemberId)
  | call1 (fn : MemberId) (a1 : Arg)
  | call2 (fn : MemberId) (a1 a2 : Arg)
  | call3 (fn : MemberId) (a1 a2 a3 : Arg)
  | call4 (fn : MemberId) (a1 a2 a3 a4 : Arg)
  | deleteSoon
deriving Repr, DecidableEq

/-- The argument values bound into a task at submission time. -/
def QTask.args : QTask → List Arg
  | .call0 _ => []
  | .call1 _ a1 => [a1]
  | .call2 _ a1 a2 => [a1, a2]
  | .call3 _ a1 a2 a3 => [a1, a2, a3]
  | .call4 _ a1 a2 a3 a4 => [a1, a2, a3, a4]
  | .deleteSoon => []

/-- Running a queued task on thread `cur`: the call tasks run the bound
`DoCallN` closure; the deferred deletion task destructs the heap
weak-pointer value on the thread executing it. -/
def runTask (c : WeakHandleCore) (cur : ThreadId) (live : Bool) :
    QTask → Except Halt (List Event)
  | .call0 fn => c.DoCall0 cur live fn
  | .call1 fn a1 => c.DoCall1 cur live fn a1
  | .call2 fn a1 a2 => c.DoCall2 cur live fn a1 a2
  | .call3 fn a1 a2 a3 => c.DoCall3 cur live fn a1 a2 a3
  | .call4 fn a1 a2 a3 a4 => c.DoCall4 cur live fn a1 a2 a3 a4
  | .deleteSoon => Except.ok [Event.deletePtr cur]

/-- Modelled from the spec: the implementation of
`WeakHandleCoreBase::PostOnOwnerThread` is declared at
src/unnamed/part_000 lines 111-112 but its .cc body is not in src/.  Per
the spec: if the calling thread is already the owner thread, the call is
dispatched synchronously in place; otherwise the closure is packaged and
submitted to the owner thread task queue and the caller returns
immediately.  The result is the events emitted synchronously together
with the tasks newly enqueued for the owner thread. -/
def WeakHandleCore.PostOnOwnerThread (c : WeakHandleCore) (cur : ThreadId)
    (live : Bool) (t : QTask) : Except Halt (List Event × List QTask) :=
  if c.IsOnOwnerThread cur then
    match runTask c cur live t with
    | Except.ok evs => Except.ok (evs, [])
    | Except.error e => Except.error e
  else
    Except.ok ([], [t])

/-- `WeakHandleCore<T>::Call` (0-argument overload): binds `DoCall0` and
hands it to `PostOnOwnerThread`. -/
def WeakHandleCore.Call0 (c : WeakHandleCore) (cur : ThreadId) (live : Bool)
    (fn : MemberId) : Except Halt (List Event × List QTask) :=
  c.PostOnOwnerThread cur live (QTask.call0 fn)

/-- `WeakHandleCore<T>::Call` (1-argument overload). -/
def WeakHandleCore.Call1 (c : WeakHandleCore) (cur : ThreadId) (live : Bool)
    (fn : MemberId) (a1 : Arg) : Except Halt (List Event × List QTask) :=
  c.PostOnOwnerThread cur live (QTask.call1 fn a1)

/-- `WeakHandleCore<T>::Call` (2-argument overload). -/
def WeakHandleCore.Call2 (c : WeakHandleCore) (cur : ThreadId) (live : Bool)
    (fn : MemberId) (a1 a2 : Arg) : Except Halt (List Event × List QTask) :=
  c.PostOnOwnerThread cur live (QTask.call2 fn a1 a2)

/-- `WeakHandleCore<T>::Call` (3-argument overload). -/
def WeakHandleCore.Call3 (c : WeakHandleCore) (cur : ThreadId) (live : Bool)
    (fn : MemberId) (a1 a2 a3 : Arg) : Except Halt (List Event × List QTask) :=
  c.PostOnOwnerThread cur live (QTask.call3 fn a1 a2 a3)

/-- `WeakHandleCore<T>::Call` (4-argument overload). -/
def WeakHandleCore.Call4 (c : WeakHandleCore) (cur : ThreadId) (live : Bool)
    (fn : MemberId) (a1 a2 a3 a4 : Arg) :
    Except Halt (List Event × List QTask) :=
  c.PostOnOwnerThread cur live (QTask.call4 fn a1 a2 a3 a4)

/-- `WeakHandleCoreBase::DeleteOnOwnerThread`: if on the owner thread,
delete `ptr_` inline; otherwise hand it to `DeleteSoon`, which enqueues a
deferred deletion task on the owner thread queue.  Result: events emitted
on the calling thread, and tasks enqueued for the owner thread. -/
def WeakHandleCore.DeleteOnOwnerThread (c : WeakHandleCore) (cur : ThreadId) :
    List Event × List QTask :=
  if c.IsOnOwnerThread cur then
    ([Event.deletePtr cur], [])
  else
    ([], [QTask.deleteSoon])

/-- `WeakHandleCore<T>::~WeakHandleCore`, run on thread `cur` when the
reference count reaches zero: `DeleteOnOwnerThread(FROM_HERE, ptr_)`. -/
def WeakHandleCore.destruct (c : WeakHandleCore) (cur : ThreadId) :
    List Event × List QTask :=
  c.DeleteOnOwnerThread cur

/-- Models `WeakHandle<T>`: `scoped_refptr<WeakHandleCore<T>> core_`,
null when the handle is uninitialized. -/
structure WeakHandle where
  core : Option WeakHandleCore
deriving Repr, DecidableEq

/-- The default constructor `WeakHandle()`: an uninitialized handle. -/
def WeakHandle.uninit : WeakHandle := ⟨none⟩

/-- `WeakHandle(const base::WeakPtr<T>&)`: allocates a new Core.  Core
construction must run on the weak pointer owner thread, which is assumed
to be the current thread `cur`; the Core captures `cur` as its owner. -/
def WeakHandle.ofWeakPtr (cur : ThreadId) (p : WeakPtr) : WeakHandle :=
  ⟨some ⟨cur, p⟩⟩

/-- The implicit copy constructor: shares the same Core. -/
def WeakHandle.copy (h : WeakHandle) : WeakHandle := h

/-- `WeakHandle<T>::IsInitialized`: `core_.get() != NULL`. -/
def WeakHandle.IsInitialized (h : WeakHandle) : Bool :=
  h.core.isSome

/-- `WeakHandle<T>::Reset`: `core_ = NULL`.  No CHECK on this path, so the
embedding is a total function. -/
def WeakHandle.Reset (_h : WeakHandle) : WeakHandle := ⟨none⟩

/-- `WeakHandle<T>::Get`: `CHECK(IsInitialized());
CHECK(core_->IsOnOwnerThread()); return core_->Get();`. -/
def WeakHandle.Get (h : WeakHandle) (cur : ThreadId) :
    Except Halt (WeakPtr × List Event) :=
  match h.core with
  | none => Except.error Halt.checkFailure
  | some c =>
      if c.IsOnOwnerThread cur then c.Get cur
      else Except.error Halt.checkFailure

/-- `WeakHandle<T>::Call` (0-argument overload): `CHECK(IsInitialized());
core_->Call(...)`. -/
def WeakHandle.Call0 (h : WeakHandle) (cur : ThreadId) (live : Bool)
    (fn : MemberId) : Except Halt (List Event × List QTask) :=
  match h.core with
  | none => Except.error Halt.checkFailure
  | some c => c.Call0 cur live fn

/-- `WeakHandle<T>::Call` (1-argument overload). -/
def WeakHandle.Call1 (h : WeakHandle) (cur : ThreadId) (live : Bool)
    (fn : MemberId) (a1 : Arg) : Except Halt (List Event × List QTask) :=
  match h.core with
  | none => Except.error Halt.checkFailure
  | some c => c.Call1 cur live fn a1

/-- `WeakHandle<T>::Call` (2-argument overload). -/
def WeakHandle.Call2 (h : WeakHandle) (cur : ThreadId) (live : Bool)
    (fn : MemberId) (a1 a2 : Arg) : Except Halt (List Event × List QTask) :=
  match h.core with
  | none => Except.error Halt.checkFailure
  | some c => c.Call2 cur live fn a1 a2

/-- `WeakHandle<T>::Call` (3-argument overload). -/
def WeakHandle.Call3 (h : WeakHandle) (cur : ThreadId) (live : Bool)
    (fn : MemberId) (a1 a2 a3 : Arg) : Except Halt (List Event × List QTask) :=
  match h.core with
  | none => Except.error Halt.checkFailure
  | some c => c.Call3 cur live fn a1 a2 a3

/-- `WeakHandle<T>::Call` (4-argument overload). -/
def WeakHandle.Call4 (h : WeakHandle) (cur : ThreadId) (live : Bool)
    (fn : MemberId) (a1 a2 a3 a4 : Arg) :
    Except Halt (List Event × List QTask) :=
  match h.core with
  | none => Except.error Halt.checkFailure
  | some c => c.Call4 cur live fn a1 a2 a3 a4

/-- `MakeWeakHandle`: wraps a weak pointer into a new handle; `cur` is the
thread performing the construction (the pointer owner thread). -/
def MakeWeakHandle (cur : ThreadId) (p : WeakPtr) : WeakHandle :=
  WeakHandle.ofWeakPtr cur p

/-- The operations a handle value itself supports (the member functions of
`WeakHandle<T>` other than construction and destruction).  `Get`, `Call`
and `IsInitialized` are const member functions in the source: they cannot
modify `core_`. -/
inductive HandleOp where
  | reset
  | isInit
  | get
  | call0
  | call1
  | call2
  | call3
  | call4
deriving Repr, DecidableEq

/-- Effect of a handle operation on the `core_` field of the handle value:
`Reset` nulls it; every other member function is const and leaves it
unchanged. -/
def WeakHandle.applyOp (h : WeakHandle) : HandleOp → WeakHandle
  | .reset => h.Reset
  | _ => h

/-- System-level operations for the reachable-executions model: any thread
may call `Get` or one of the `Call` overloads through the Core; the target
may be destroyed (on its owner thread, invalidating every weak pointer to
it); the last reference to the Core may be dropped on any thread, running
`~WeakHandleCore`; and the owner thread may run the next queued task. -/
inductive Op where
  | get (tid : ThreadId)
  | call0 (tid : ThreadId) (fn : MemberId)
  | call1 (tid : ThreadId) (fn : MemberId) (a1 : Arg)
  | call2 (tid : ThreadId) (fn : MemberId) (a1 a2 : Arg)
  | call3 (tid : ThreadId) (fn : MemberId) (a1 a2 a3 : Arg)
  | call4 (tid : ThreadId) (fn : MemberId) (a1 a2 a3 a4 : Arg)
  | destroyTarget
  | releaseCore (tid : ThreadId)
  | runNext
deriving Repr, DecidableEq

/-- A system state: the Core under consideration, whether its target is
still alive, the owner thread task queue (the external message loop is
FIFO and runs every posted task on the owner thread), the accumulated
trace of events, and whether a CHECK has halted the process. -/
structure World where
  core : WeakHandleCore
  live : Bool
  queue : List QTask
  trace : List Event
  halted : Bool
deriving Repr, DecidableEq

/-- Initial state: empty queue, empty trace, not halted. -/
def initWorld (c : WeakHandleCore) (live : Bool) : World :=
  ⟨c, live, [], [], false⟩

/-- One system step.  A halted world is absorbing.  A CHECK failure halts
the world.  Posted tasks accumulate at the queue tail; `runNext` runs the
head of the queue on the owner thread, as the external message loop
guarantees. -/
def stepOp (w : World) (op : Op) : World :=
  if w.halted then w else
  match op with
  | .get tid =>
      match w.core.Get tid with
      | Except.ok (_, evs) => { w with trace := w.trace ++ evs }
      | Except.error _ => { w with halted := true }
  | .call0 tid fn =>
      match w.core.Call0 tid w.live fn with
      | Except.ok (evs, ts) =>
          { w with trace := w.trace ++ evs, queue := w.queue ++ ts }
      | Except.error _ => { w with halted := true }
  | .call1 tid fn a1 =>
      match w.core.Call1 tid w.live fn a1 with
      | Except.ok (evs, ts) =>
          { w with trace := w.trace ++ evs, queue := w.queue ++ ts }
      | Except.error _ => { w with halted := true }
  | .call2 tid fn a1 a2 =>
      match w.core.Call2 tid w.live fn a1 a2 with
      | Except.ok (evs, ts) =>
          { w with trace := w.trace ++ evs, queue := w.queue ++ ts }
      | Except.error _ => { w with halted := true }
  | .call3 tid fn a1 a2 a3 =>
      match w.core.Call3 tid w.live fn a1 a2 a3 with
      | Except.ok (evs, ts) =>
          { w with trace := w.trace ++ evs, queue := w.queue ++ ts }
      | Except.error _ => { w with halted := true }
  | .call4 tid fn a1 a2 a3 a4 =>
      match w.core.Call4 tid w.live fn a1 a2 a3 a4 with
      | Except.ok (evs, ts) =>
          { w with trace := w.trace ++ evs, queue := w.queue ++ ts }
      | Except.error _ => { w with halted := true }
  | .destroyTarget => { w with live := false }
  | .releaseCore tid =>
      let r := w.core.destruct tid
      { w with trace := w.trace ++ r.1, queue := w.queue ++ r.2 }
  | .runNext =>
      match w.queue with
      | [] => w
      | t :: rest =>
          match runTask w.core w.core.ownerThread w.live t with
          | Except.ok evs => { w with queue := rest, trace := w.trace ++ evs }
          | Except.error _ => { w with queue := rest, halted := true }

/-- Running a whole schedule of system operations. -/
def runOps (w : World) (ops : List Op) : World :=
  ops.foldl stepOp w

/-- An event respects owner-thread affinity of the weak-pointer value if,
whenever it reads or deletes that value, it does so on the owner thread. -/
def Event.ptrAccessOnOwner (owner : ThreadId) : Event → Bool
  | .touchPtr t => t == owner
  | .deletePtr t => t == owner
  | _ => true

theorem runTask_tid (c : WeakHandleCore) (cur : ThreadId) (live : Bool)
    (t : QTask) (evs : List Event) (h : runTask c cur live t = Except.ok evs) :
    evs.all (fun e => e.tid == cur) = true := by
  cases t <;> cases live <;>
    simp only [runTask, WeakHandleCore.DoCall0, WeakHandleCore.DoCall1,
      WeakHandleCore.DoCall2, WeakHandleCore.DoCall3, WeakHandleCore.DoCall4,
      WeakPtr.get, reduceIte] at h <;>
    first
      | (split at h <;>
          first
            | (injection h with h; subst h; simp [Event.tid])
            | simp_all)
      | (injection h with h; subst h; simp [Event.tid])

theorem all_ptrAccessOnOwner_of_tid (owner : ThreadId) (evs : List Event)
    (h : evs.all (fun e => e.tid == owner) = true) :
    evs.all (Event.ptrAccessOnOwner owner) = true := by
  induction evs with
  | nil => rfl
  | cons e rest ih =>
      simp only [List.all_cons, Bool.and_eq_true] at h ⊢
      refine ⟨?_, ih h.2⟩
      cases e <;> simp_all [Event.tid, Event.ptrAccessOnOwner]

theorem stepOp_core_eq (w : World) (op : Op) : (stepOp w op).core = w.core := by
  cases op <;> simp only [stepOp] <;> split <;>
    first
      | rfl
      | (split <;> first | rfl | (split <;> rfl))

theorem PostOnOwnerThread_ok_all (c : WeakHandleCore) (cur : ThreadId)
    (live : Bool) (t : QTask) (evs : List Event) (ts : List QTask)
    (h : c.PostOnOwnerThread cur live t = Except.ok (evs, ts)) :
    evs.all (Event.ptrAccessOnOwner c.ownerThread) = true := by
  unfold WeakHandleCore.PostOnOwnerThread at h
  split at h
  case isTrue hown =>
    split at h
    case h_1 evs0 hrun =>
      simp only [Except.ok.injEq, Prod.mk.injEq] at h
      obtain ⟨hevs, -⟩ := h
      subst hevs
      have htid := runTask_tid c cur live t evs0 hrun
      have hcur : cur = c.ownerThread := by
        simpa [WeakHandleCore.IsOnOwnerThread] using hown
      subst hcur
      exact all_ptrAccessOnOwner_of_tid _ _ htid
    case h_2 => simp_all
  case isFalse =>
    simp only [Except.ok.injEq, Prod.mk.injEq] at h
    obtain ⟨hevs, -⟩ := h
    subst hevs
    rfl

theorem Get_ok_all (c : WeakHandleCore) (cur : ThreadId) (p : WeakPtr)
    (evs : List Event) (h : c.Get cur = Except.ok (p, evs)) :
    evs.all (Event.ptrAccessOnOwner c.ownerThread) = true := by
  unfold WeakHandleCore.Get at h
  split at h
  case isTrue hown =>
    simp only [Except.ok.injEq, Prod.mk.injEq] at h
    obtain ⟨-, hevs⟩ := h
    subst hevs
    have hcur : cur = c.ownerThread := by
      simpa [WeakHandleCore.IsOnOwnerThread] using hown
    simp [Event.ptrAccessOnOwner, hcur]
  case isFalse => simp_all

theorem destruct_all (c : WeakHandleCore) (cur : ThreadId) :
    (c.destruct cur).1.all (Event.ptrAccessOnOwner c.ownerThread) = true := by
  unfold WeakHandleCore.destruct WeakHandleCore.DeleteOnOwnerThread
  split
  case isTrue hown =>
    have hcur : cur = c.ownerThread := by
      simpa [WeakHandleCore.IsOnOwnerThread] using hown
    simp [Event.ptrAccessOnOwner, hcur]
  case isFalse => rfl

theorem stepOp_trace_all (w : World) (op : Op)
    (h : w.trace.all (Event.ptrAccessOnOwner w.core.ownerThread) = true) :
    (stepOp w op).trace.all
      (Event.ptrAccessOnOwner w.core.ownerThread) = true := by
  cases op <;> simp only [stepOp] <;> split
  case get.isTrue => exact h
  case get.isFalse tid hnh =>
    cases hg : w.core.Get tid with
    | ok r =>
        simp only [hg]
        simp only [List.all_append, Bool.and_eq_true]
        exact ⟨h, Get_ok_all w.core tid r.1 r.2 (by rw [hg])⟩
    | error e => simp only [hg]; exact h
  case call0.isTrue => exact h
  case call0.isFalse tid fn hnh =>
    cases hc : w.core.Call0 tid w.live fn with
    | ok r =>
        simp only [hc, List.all_append, Bool.and_eq_true]
        exact ⟨h, PostOnOwnerThread_ok_all w.core tid w.live (QTask.call0 fn) r.1 r.2 (by simpa [WeakHandleCore.Call0] using hc)⟩
    | error e => simp only [hc]; exact h
  case call1.isTrue => exact h
  case call1.isFalse tid fn a1 hnh =>
    cases hc : w.core.Call1 tid w.live fn a1 with
    | ok r =>
        simp only [hc, List.all_append, Bool.and_eq_true]
        exact ⟨h, PostOnOwnerThread_ok_all w.core tid w.live (QTask.call1 fn a1) r.1 r.2 (by simpa [WeakHandleCore.Call1] using hc)⟩
    | error e => simp only [hc]; exact h
  case call2.isTrue => exact h
  case call2.isFalse tid fn a1 a2 hnh =>
    cases hc : w.core.Call2 tid w.live fn a1 a2 with
    | ok r =>
        simp only [hc, List.all_append, Bool.and_eq_true]
        exact ⟨h, PostOnOwnerThread_ok_all w.core tid w.live (QTask.call2 fn a1 a2) r.1 r.2 (by simpa [WeakHandleCore.Call2] using hc)⟩
    | error e => simp only [hc]; exact h
  case call3.isTrue => exact h
  case call3.isFalse tid fn a1 a2 a3 hnh =>
    cases hc : w.core.Call3 tid w.live fn a1 a2 a3 with
    | ok r =>
        simp only [hc, List.all_append, Bool.and_eq_true]
        exact ⟨h, PostOnOwnerThread_ok_all w.core tid w.live (QTask.call3 fn a1 a2 a3) r.1 r.2 (by simpa [WeakHandleCore.Call3] using hc)⟩
    | error e => simp only [hc]; exact h
  case call4.isTrue => exact h
  case call4.isFalse tid fn a1 a2 a3 a4 hnh =>
    cases hc : w.core.Call4 tid w.live fn a1 a2 a3 a4 with
    | ok r =>
        simp only [hc, List.all_append, Bool.and_eq_true]
        exact ⟨h, PostOnOwnerThread_ok_all w.core tid w.live (QTask.call4 fn a1 a2 a3 a4) r.1 r.2 (by simpa [WeakHandleCore.Call4] using hc)⟩
    | error e => simp only [hc]; exact h
  case destroyTarget.isTrue => exact h
  case destroyTarget.isFalse => exact h
  case releaseCore.isTrue => exact h
  case releaseCore.isFalse tid hnh =>
    simp only [List.all_append, Bool.and_eq_true]
    exact ⟨h, destruct_all w.core tid⟩
  case runNext.isTrue => exact h
  case runNext.isFalse =>
    cases hq : w.queue with
    | nil => simp only [hq]; exact h
    | cons t rest =>
        simp only [hq]
        cases hr : runTask w.core w.core.ownerThread w.live t with
        | ok evs =>
            simp only [hr, List.all_append, Bool.and_eq_true]
            refine ⟨h, ?_⟩
            exact all_ptrAccessOnOwner_of_tid _ _
              (runTask_tid w.core w.core.ownerThread w.live t evs hr)
        | error e => simp only [hr]; exact h

theorem runOps_core_eq (ops : List Op) : ∀ w : World,
    (runOps w ops).core = w.core := by
  induction ops with
  | nil => intro w; rfl
  | cons op rest ih =>
      intro w
      have h1 : runOps w (op :: rest) = runOps (stepOp w op) rest := rfl
      rw [h1, ih (stepOp w op), stepOp_core_eq]

theorem runOps_trace_all (ops : List Op) : ∀ w : World,
    w.trace.all (Event.ptrAccessOnOwner w.core.ownerThread) = true →
    (runOps w ops).trace.all
      (Event.ptrAccessOnOwner w.core.ownerThread) = true := by
  induction ops with
  | nil => intro w h; exact h
  | cons op rest ih =>
      intro w h
      have h1 : runOps w (op :: rest) = runOps (stepOp w op) rest := rfl
      rw [h1]
      have h2 := ih (stepOp w op)
      rw [stepOp_core_eq] at h2
      exact h2 (stepOp_trace_all w op h)

/-- C1: when a call task posted by any arity of Call executes on the owner
thread and the wrapped weak reference resolves to null (the target is
dead), the dispatch returns normally after one pointer resolution: it
emits no member invocation, no log, and no error signal — a silent no-op,
at every arity 0 through 4. -/
theorem deadTargetCallIsSilentNoop (c : WeakHandleCore) (fn : MemberId)
    (a1 a2 a3 a4 : Arg) :
    c.DoCall0 c.ownerThread false fn =
      Except.ok [Event.touchPtr c.ownerThread] ∧
    c.DoCall1 c.ownerThread false fn a1 =
      Except.ok [Event.touchPtr c.ownerThread] ∧
    c.DoCall2 c.ownerThread false fn a1 a2 =
      Except.ok [Event.touchPtr c.ownerThread] ∧
    c.DoCall3 c.ownerThread false fn a1 a2 a3 =
      Except.ok [Event.touchPtr c.ownerThread] ∧
    c.DoCall4 c.ownerThread false fn a1 a2 a3 a4 =
      Except.ok [Event.touchPtr c.ownerThread] := by
  refine ⟨?_, ?_, ?_, ?_, ?_⟩ <;>
    simp [WeakHandleCore.DoCall0, WeakHandleCore.DoCall1,
      WeakHandleCore.DoCall2, WeakHandleCore.DoCall3, WeakHandleCore.DoCall4,
      WeakHandleCore.IsOnOwnerThread, WeakPtr.get]

/-- C2: in every reachable execution of the system model (any schedule of
Get and Call requests from arbitrary threads, target destruction, Core
release on an arbitrary thread, and owner-thread queue draining), every
read and every deletion of the Core's heap-allocated weak-pointer value
happens on that Core's owner thread. -/
theorem ptrTouchedOnlyOnOwnerThread (c : WeakHandleCore) (live : Bool)
    (ops : List Op) :
    ((runOps (initWorld c live) ops).trace).all
      (Event.ptrAccessOnOwner c.ownerThread) = true :=
  runOps_trace_all ops (initWorld c live) rfl

/-- C3: when the Core's reference count reaches zero, running the
destructor on the owner thread deletes the weak-pointer value immediately
and inline (and posts nothing); running it on any other thread deletes
nothing on that thread and instead posts a deferred deletion task, which,
when the owner thread drains it, destructs the value on the owner
thread. -/
theorem coreDestructionDeletesOnOwnerThread (c : WeakHandleCore)
    (cur : ThreadId) (live : Bool) (hoff : cur ≠ c.ownerThread) :
    c.destruct c.ownerThread = ([Event.deletePtr c.ownerThread], []) ∧
    c.destruct cur = ([], [QTask.deleteSoon]) ∧
    runTask c c.ownerThread live QTask.deleteSoon =
      Except.ok [Event.deletePtr c.ownerThread] := by
  refine ⟨?_, ?_, rfl⟩
  · simp [WeakHandleCore.destruct, WeakHandleCore.DeleteOnOwnerThread,
      WeakHandleCore.IsOnOwnerThread]
  · simp [WeakHandleCore.destruct, WeakHandleCore.DeleteOnOwnerThread,
      WeakHandleCore.IsOnOwnerThread, hoff]

/-- C3 witness: a Core owned by thread 0, released on thread 1. -/
theorem coreDestructionDeletesOnOwnerThread_witness :
    (1 : ThreadId) ≠ (0 : ThreadId) ∧
    WeakHandleCore.destruct ⟨0, ⟨7⟩⟩ 0 = ([Event.deletePtr 0], []) ∧
    WeakHandleCore.destruct ⟨0, ⟨7⟩⟩ 1 = ([], [QTask.deleteSoon]) ∧
    runTask ⟨0, ⟨7⟩⟩ 0 true QTask.deleteSoon =
      Except.ok [Event.deletePtr 0] := by
  have h := coreDestructionDeletesOnOwnerThread ⟨0, ⟨7⟩⟩ 1 true (by decide)
  exact ⟨by decide, h.1, h.2.1, h.2.2⟩

/-- C4: contract violations hit a fatal CHECK and do not return a value:
Get on an uninitialized handle halts; Get on an initialized handle from a
thread other than the owner thread halts; Call at every arity 0 through 4
on an uninitialized handle halts. -/
theorem contractViolationsHalt (c : WeakHandleCore) (cur : ThreadId)
    (live : Bool) (fn : MemberId) (a1 a2 a3 a4 : Arg)
    (hoff : cur ≠ c.ownerThread) :
    WeakHandle.Get ⟨none⟩ cur = Except.error Halt.checkFailure ∧
    WeakHandle.Get ⟨some c⟩ cur = Except.error Halt.checkFailure ∧
    WeakHandle.Call0 ⟨none⟩ cur live fn = Except.error Halt.checkFailure ∧
    WeakHandle.Call1 ⟨none⟩ cur live fn a1 = Except.error Halt.checkFailure ∧
    WeakHandle.Call2 ⟨none⟩ cur live fn a1 a2 =
      Except.error Halt.checkFailure ∧
    WeakHandle.Call3 ⟨none⟩ cur live fn a1 a2 a3 =
      Except.error Halt.checkFailure ∧
    WeakHandle.Call4 ⟨none⟩ cur live fn a1 a2 a3 a4 =
      Except.error Halt.checkFailure := by
  refine ⟨rfl, ?_, rfl, rfl, rfl, rfl, rfl⟩
  simp [WeakHandle.Get, WeakHandleCore.IsOnOwnerThread, hoff]

/-- C4 witness: a Core owned by thread 0, contract violations from
thread 1. -/
theorem contractViolationsHalt_witness :
    (1 : ThreadId) ≠ (0 : ThreadId) ∧
    WeakHandle.Get ⟨none⟩ 1 = Except.error Halt.checkFailure ∧
    WeakHandle.Get ⟨some ⟨0, ⟨7⟩⟩⟩ 1 = Except.error Halt.checkFailure ∧
    WeakHandle.Call0 ⟨none⟩ 1 true 5 = Except.error Halt.checkFailure := by
  have h := contractViolationsHalt ⟨0, ⟨7⟩⟩ 1 true 5 11 12 13 14 (by decide)
  exact ⟨by decide, h.1, h.2.1, h.2.2.1⟩

/-- C5: a Call made on the owner thread itself is dispatched synchronously
in place — its result is exactly the in-place run of the bound DoCall
closure, with nothing added to the task queue — while a Call from a
foreign thread emits nothing synchronously and packages member and
arguments into a single task posted to the owner thread queue; at every
arity 0 through 4. -/
theorem ownerThreadCallDispatchesSynchronously (c : WeakHandleCore)
    (cur : ThreadId) (live : Bool) (fn : MemberId) (a1 a2 a3 a4 : Arg)
    (hoff : cur ≠ c.ownerThread) :
    c.Call0 c.ownerThread live fn =
      Except.map (fun evs => (evs, []))
        (c.DoCall0 c.ownerThread live fn) ∧
    c.Call1 c.ownerThread live fn a1 =
      Except.map (fun evs => (evs, []))
        (c.DoCall1 c.ownerThread live fn a1) ∧
    c.Call2 c.ownerThread live fn a1 a2 =
      Except.map (fun evs => (evs, []))
        (c.DoCall2 c.ownerThread live fn a1 a2) ∧
    c.Call3 c.ownerThread live fn a1 a2 a3 =
      Except.map (fun evs => (evs, []))
        (c.DoCall3 c.ownerThread live fn a1 a2 a3) ∧
    c.Call4 c.ownerThread live fn a1 a2 a3 a4 =
      Except.map (fun evs => (evs, []))
        (c.DoCall4 c.ownerThread live fn a1 a2 a3 a4) ∧
    c.Call0 cur live fn = Except.ok ([], [QTask.call0 fn]) ∧
    c.Call1 cur live fn a1 = Except.ok ([], [QTask.call1 fn a1]) ∧
    c.Call2 cur live fn a1 a2 = Except.ok ([], [QTask.call2 fn a1 a2]) ∧
    c.Call3 cur live fn a1 a2 a3 =
      Except.ok ([], [QTask.call3 fn a1 a2 a3]) ∧
    c.Call4 cur live fn a1 a2 a3 a4 =
      Except.ok ([], [QTask.call4 fn a1 a2 a3 a4]) := by
  refine ⟨?_, ?_, ?_, ?_, ?_, ?_, ?_, ?_, ?_, ?_⟩ <;>
    cases live <;>
    simp [WeakHandleCore.Call0, WeakHandleCore.Call1, WeakHandleCore.Call2,
      WeakHandleCore.Call3, WeakHandleCore.Call4,
      WeakHandleCore.PostOnOwnerThread, runTask,
      WeakHandleCore.DoCall0, WeakHandleCore.DoCall1, WeakHandleCore.DoCall2,
      WeakHandleCore.DoCall3, WeakHandleCore.DoCall4,
      WeakHandleCore.IsOnOwnerThread, WeakPtr.get, Except.map, hoff]

/-- C5 witness: a Core owned by thread 0, with the foreign caller on
thread 1. -/
theorem ownerThreadCallDispatchesSynchronously_witness :
    (1 : ThreadId) ≠ (0 : ThreadId) ∧
    WeakHandleCore.Call0 ⟨0, ⟨7⟩⟩ 0 true 5 =
      Except.ok ([Event.touchPtr 0, Event.touchPtr 0,
                  Event.invoke 0 7 5 []], []) ∧
    WeakHandleCore.Call0 ⟨0, ⟨7⟩⟩ 1 true 5 =
      Except.ok ([], [QTask.call0 5]) := by
  have h := ownerThreadCallDispatchesSynchronously ⟨0, ⟨7⟩⟩ 1 true 5 11 12 13 14
    (by decide)
  refine ⟨by decide, ?_, h.2.2.2.2.2.1⟩
  rw [h.1]
  decide

/-- C6: a Call submitted from a foreign thread returns immediately — no
synchronous events, no completion wait, no return-value channel — having
packaged the member and the supplied argument values into exactly one
queued task; and when the owner thread later drains that task while the
target is still alive, the target member is executed exactly once, on the
owner thread, with argument values equal to the ones supplied at
submission; at every arity 0 through 4. -/
theorem foreignCallRunsExactlyOnceWithArgs (c : WeakHandleCore)
    (cur : ThreadId) (live : Bool) (fn : MemberId) (a1 a2 a3 a4 : Arg)
    (hoff : cur ≠ c.ownerThread) :
    (c.Call0 cur live fn = Except.ok ([], [QTask.call0 fn]) ∧
     runTask c c.ownerThread true (QTask.call0 fn) =
       Except.ok [Event.touchPtr c.ownerThread, Event.touchPtr c.ownerThread,
                  Event.invoke c.ownerThread c.ptr.target fn []]) ∧
    (c.Call1 cur live fn a1 = Except.ok ([], [QTask.call1 fn a1]) ∧
     runTask c c.ownerThread true (QTask.call1 fn a1) =
       Except.ok [Event.touchPtr c.ownerThread, Event.touchPtr c.ownerThread,
                  Event.invoke c.ownerThread c.ptr.target fn [a1]]) ∧
    (c.Call2 cur live fn a1 a2 = Except.ok ([], [QTask.call2 fn a1 a2]) ∧
     runTask c c.ownerThread true (QTask.call2 fn a1 a2) =
       Except.ok [Event.touchPtr c.ownerThread, Event.touchPtr c.ownerThread,
                  Event.invoke c.ownerThread c.ptr.target fn [a1, a2]]) ∧
    (c.Call3 cur live fn a1 a2 a3 =
       Except.ok ([], [QTask.call3 fn a1 a2 a3]) ∧
     runTask c c.ownerThread true (QTask.call3 fn a1 a2 a3) =
       Except.ok [Event.touchPtr c.ownerThread, Event.touchPtr c.ownerThread,
                  Event.invoke c.ownerThread c.ptr.target fn [a1, a2, a3]]) ∧
    (c.Call4 cur live fn a1 a2 a3 a4 =
       Except.ok ([], [QTask.call4 fn a1 a2 a3 a4]) ∧
     runTask c c.ownerThread true (QTask.call4 fn a1 a2 a3 a4) =
       Except.ok [Event.touchPtr c.ownerThread, Event.touchPtr c.ownerThread,
                  Event.invoke c.ownerThread c.ptr.target fn
                    [a1, a2, a3, a4]]) := by
  refine ⟨⟨?_, ?_⟩, ⟨?_, ?_⟩, ⟨?_, ?_⟩, ⟨?_, ?_⟩, ⟨?_, ?_⟩⟩ <;>
    simp [WeakHandleCore.Call0, WeakHandleCore.Call1, WeakHandleCore.Call2,
      WeakHandleCore.Call3, WeakHandleCore.Call4,
      WeakHandleCore.PostOnOwnerThread, runTask,
      WeakHandleCore.DoCall0, WeakHandleCore.DoCall1, WeakHandleCore.DoCall2,
      WeakHandleCore.DoCall3, WeakHandleCore.DoCall4,
      WeakHandleCore.IsOnOwnerThread, WeakPtr.get, hoff]

/-- C6 witness: a Call of member 5 with argument 9 submitted from thread 1
to a Core owned by thread 0 whose target 7 stays alive. -/
theorem foreignCallRunsExactlyOnceWithArgs_witness :
    (1 : ThreadId) ≠ (0 : ThreadId) ∧
    WeakHandleCore.Call1 ⟨0, ⟨7⟩⟩ 1 true 5 9 =
      Except.ok ([], [QTask.call1 5 9]) ∧
    runTask ⟨0, ⟨7⟩⟩ 0 true (QTask.call1 5 9) =
      Except.ok [Event.touchPtr 0, Event.touchPtr 0,
                 Event.invoke 0 7 5 [9]] := by
  have h := foreignCallRunsExactlyOnceWithArgs ⟨0, ⟨7⟩⟩ 1 true 5 9 12 13 14
    (by decide)
  exact ⟨by decide, h.2.1.1, h.2.1.2⟩

/-- C7: per-handle state machine.  A default-constructed handle is
uninitialized; a handle constructed from a weak pointer reports
initialized (`IsInitialized` consults only the attached Core, never
target liveness); copying preserves the attached Core, so copying a bound
handle yields a bound handle sharing the same Core; Reset from any state
yields an uninitialized handle; and among the handle member operations
(`applyOp` covers Reset and the const members Get, Call0-4 and
IsInitialized), the only one that takes a bound handle to unbound is
Reset. -/
theorem handleStateMachine (h : WeakHandle) (op : HandleOp)
    (hBound : h.IsInitialized = true)
    (hLeft : (h.applyOp op).IsInitialized = false) :
    WeakHandle.uninit.IsInitialized = false ∧
    (∀ (cur : ThreadId) (p : WeakPtr),
      (WeakHandle.ofWeakPtr cur p).IsInitialized = true) ∧
    (∀ g : WeakHandle, g.copy.core = g.core) ∧
    (∀ c0 : WeakHandleCore,
      (WeakHandle.copy ⟨some c0⟩).IsInitialized = true) ∧
    (∀ g : WeakHandle, (g.Reset).IsInitialized = false) ∧
    op = HandleOp.reset := by
  refine ⟨rfl, fun cur p => rfl, fun g => rfl, fun c0 => rfl,
    fun g => rfl, ?_⟩
  cases op
  case reset => rfl
  all_goals
    simp only [WeakHandle.applyOp] at hLeft
    rw [hBound] at hLeft
    exact Bool.noConfusion hLeft

/-- C7 witness: a bound handle (Core owned by thread 0) taken to unbound
by an operation; the state machine forces that operation to be Reset. -/
theorem handleStateMachine_witness :
    (WeakHandle.IsInitialized ⟨some ⟨0, ⟨7⟩⟩⟩ = true) ∧
    ((WeakHandle.applyOp ⟨some ⟨0, ⟨7⟩⟩⟩ HandleOp.reset).IsInitialized
       = false) ∧
    HandleOp.reset = HandleOp.reset := by
  have h := handleStateMachine ⟨some ⟨0, ⟨7⟩⟩⟩ HandleOp.reset
    (by decide) (by decide)
  exact ⟨by decide, by decide, h.2.2.2.2.2⟩

/-- C8: round-trip through the factory: for every weak pointer `p`,
`MakeWeakHandle p` (constructed on the pointer owner thread `cur`) yields
an initialized handle, and `Get` on it from the owner thread returns a
weak pointer equal to `p` — construction then Get is the identity on the
wrapped weak reference. -/
theorem makeWeakHandleGetRoundTrip (cur : ThreadId) (p : WeakPtr) :
    (MakeWeakHandle cur p).IsInitialized = true ∧
    (MakeWeakHandle cur p).Get cur =
      Except.ok (p, [Event.touchPtr cur]) := by
  constructor
  · rfl
  · simp [MakeWeakHandle, WeakHandle.ofWeakPtr, WeakHandle.Get,
      WeakHandleCore.Get, WeakHandleCore.IsOnOwnerThread]

/-- C9: the invocation surface accepts a member selector and zero to four
arguments: at each arity 0 through 4 the handle-level Call forwards to
the Core-level Call identically, whatever the calling thread and the
target liveness, and no call operation carries more than four arguments
(every packaged task binds at most four argument values). -/
theorem callSurfaceArityBounded (c : WeakHandleCore) (cur : ThreadId)
    (live : Bool) (fn : MemberId) (a1 a2 a3 a4 : Arg) :
    WeakHandle.Call0 ⟨some c⟩ cur live fn = c.Call0 cur live fn ∧
    WeakHandle.Call1 ⟨some c⟩ cur live fn a1 = c.Call1 cur live fn a1 ∧
    WeakHandle.Call2 ⟨some c⟩ cur live fn a1 a2 =
      c.Call2 cur live fn a1 a2 ∧
    WeakHandle.Call3 ⟨some c⟩ cur live fn a1 a2 a3 =
      c.Call3 cur live fn a1 a2 a3 ∧
    WeakHandle.Call4 ⟨some c⟩ cur live fn a1 a2 a3 a4 =
      c.Call4 cur live fn a1 a2 a3 a4 ∧
    QTask.args (QTask.call0 fn) = [] ∧
    QTask.args (QTask.call1 fn a1) = [a1] ∧
    QTask.args (QTask.call2 fn a1 a2) = [a1, a2] ∧
    QTask.args (QTask.call3 fn a1 a2 a3) = [a1, a2, a3] ∧
    QTask.args (QTask.call4 fn a1 a2 a3 a4) = [a1, a2, a3, a4] ∧
    (∀ t : QTask, (QTask.args t).length ≤ 4) := by
  refine ⟨rfl, rfl, rfl, rfl, rfl, rfl, rfl, rfl, rfl, rfl, ?_⟩
  intro t
  cases t <;> simp [QTask.args]

/-- C10: Reset never hits a fatal CHECK (its embedding is a total
function, mirroring the CHECK-free source) and is idempotent: Reset
always yields an uninitialized handle, a second Reset changes nothing,
and Reset of an already-uninitialized handle is a complete no-op on the
handle state. -/
theorem resetIdempotentNeverFatal (h : WeakHandle)
    (hUninit : h.IsInitialized = false) :
    (∀ g : WeakHandle, (g.Reset).IsInitialized = false) ∧
    (∀ g : WeakHandle, g.Reset.Reset = g.Reset) ∧
    h.Reset = h := by
  refine ⟨fun g => rfl, fun g => rfl, ?_⟩
  obtain ⟨co⟩ := h
  cases co with
  | none => rfl
  | some c => simp [WeakHandle.IsInitialized] at hUninit

/-- C10 witness: Reset of the uninitialized handle. -/
theorem resetIdempotentNeverFatal_witness :
    (WeakHandle.IsInitialized ⟨none⟩ = false) ∧
    WeakHandle.Reset ⟨none⟩ = (⟨none⟩ : WeakHandle) := by
  have h := resetIdempotentNeverFatal ⟨none⟩ (by decide)
  exact ⟨by decide, h.2.2⟩
